import Mathlib

/-!
Shallow embedding of the cookie-based FastAPI authentication core
(`app/authentication/{security,dependencies,helpers,routes}.py`).

Modelling conventions:
* Wall-clock instants and time deltas are integers (epoch seconds).
  `utcnow()` is passed explicitly as a `now : Int` parameter.
* JWT claim payloads are association lists `String → ClaimVal` with the
  overwrite semantics of a Python `dict` (`insertClaim` replaces any
  existing binding, `getClaim` is `dict.get`).
* The external `jose` JWT library is modelled at its interface contract:
  a signed token is its claims dictionary together with a MAC computed
  from the process-wide secret over the full claims dictionary.  The MAC
  is modelled as an ideal (collision-free) MAC — the pair of the secret
  and the signed payload — which is the tamper-evidence contract the
  library provides.  A wire string that is not a well-formed JWT at all
  is the `Wire.malformed` value.  The single signing algorithm
  (`settings.ALGORITHM`, identical at encode and decode time) is elided.
* Database state (the `TokenBlacklist` table and the `User` table) is an
  explicit `AuthState` record threaded through the flows.
-/

/-- A JWT claim value: the payloads here hold strings (`sub`, `type`)
and numbers (`exp`, stored by `jose` as epoch seconds). -/
inductive ClaimVal where
  | s (v : String)
  | n (v : Int)
deriving DecidableEq, Repr

/-- A claims dictionary, as carried inside a token. -/
abbrev Claims := List (String × ClaimVal)

/-- `dict.get(k)`: first binding of `k`, if any. -/
def getClaim (k : String) : Claims → Option ClaimVal
  | [] => none
  | (k', v) :: rest => if k' = k then some v else getClaim k rest

/-- Drop every binding of key `k`. -/
def eraseKey (k : String) : Claims → Claims
  | [] => []
  | (k', v) :: rest =>
    if k' = k then eraseKey k rest else (k', v) :: eraseKey k rest

/-- `dict.update({k: v})` for a single key: replace any existing binding
of `k` by `v` (a Python dict holds at most one binding per key). -/
def insertClaim (k : String) (v : ClaimVal) (d : Claims) : Claims :=
  (k, v) :: eraseKey k d

/-- An ideal MAC over a claims dictionary: tamper-evident by
construction (injective in both the secret and the payload), which is
the interface contract of the `jose` HMAC. -/
def macSig (secret : String) (c : Claims) : String × Claims :=
  (secret, c)

/-- A well-formed signed token: claims plus signature. -/
structure SignedToken where
  claims : Claims
  sig : String × Claims
deriving DecidableEq, Repr

/-- A wire string presented to the decoder: either some well-formed
JWT structure, or not a JWT at all. -/
inductive Wire where
  | malformed
  | tok (t : SignedToken)
deriving DecidableEq, Repr

/-- Process-wide configuration (`app.core.config.settings`), loaded once
at startup.  `ACCESS_TOKEN_EXPIRY` is in minutes and
`REFRESH_TOKEN_EXPIRY` in days, exactly as in the source. -/
structure Settings where
  SECRET_KEY : String
  ACCESS_TOKEN_EXPIRY : Nat
  REFRESH_TOKEN_EXPIRY : Nat
  ACCESS_TOKEN_COOKIE_NAME : String
  REFRESH_TOKEN_COOKIE_NAME : String
deriving DecidableEq, Repr

/-- `jose.jwt.encode(claims, secret, algorithm)`. -/
def jwtEncode (secret : String) (c : Claims) : Wire :=
  .tok ⟨c, macSig secret c⟩

/-- `jose.jwt.decode(token, secret, algorithms)`: `none` models the
`JWTError` raised on a malformed wire string, a signature mismatch, or
an `exp` claim in the past (expired exactly when `exp < now`, the
library's zero-leeway check; a missing `exp` claim is not checked). -/
def jwtDecode (secret : String) (now : Int) : Wire → Option Claims
  | .malformed => none
  | .tok t =>
    if t.sig = macSig secret t.claims then
      match getClaim "exp" t.claims with
      | some (.n e) => if e < now then none else some t.claims
      | some (.s _) => none
      | none => some t.claims
    else none

/-- `security.create_access_token(data, expires_delta)`: copy `data`,
compute `expire` (caller delta, else `ACCESS_TOKEN_EXPIRY` minutes),
overwrite the `exp` and `type` keys, sign. -/
def create_access_token (st : Settings) (now : Int) (data : Claims)
    (expires_delta : Option Int) : Wire :=
  let expire : Int :=
    match expires_delta with
    | some d => now + d
    | none => now + st.ACCESS_TOKEN_EXPIRY * 60
  let to_encode := insertClaim "type" (.s "access") (insertClaim "exp" (.n expire) data)
  jwtEncode st.SECRET_KEY to_encode

/-- `security.create_refresh_token(data, expires_delta)`: same shape,
default TTL `REFRESH_TOKEN_EXPIRY` days, type tag `refresh`. -/
def create_refresh_token (st : Settings) (now : Int) (data : Claims)
    (expires_delta : Option Int) : Wire :=
  let expire : Int :=
    match expires_delta with
    | some d => now + d
    | none => now + st.REFRESH_TOKEN_EXPIRY * 24 * 60 * 60
  let to_encode := insertClaim "type" (.s "refresh") (insertClaim "exp" (.n expire) data)
  jwtEncode st.SECRET_KEY to_encode

/-- `security.decode_token(token)`: the `try/except JWTError` wrapper —
every failure cause collapses to the single value `none`. -/
def decode_token (st : Settings) (now : Int) (token : Wire) : Option Claims :=
  jwtDecode st.SECRET_KEY now token

/-- A row of the external `User` table, at the fields the checkpoints
read (`users/models.py` is outside the provided sources; the spec fixes
this interface). -/
structure UserRec where
  email : String
  is_active : Bool
  is_verified : Bool
deriving DecidableEq, Repr

/-- The backing store the flows read and mutate: the `TokenBlacklist`
table (revocation store, keyed on the exact wire string) and the `User`
table. -/
structure AuthState where
  blacklist : List Wire
  users : List UserRec
deriving DecidableEq, Repr

/-- `select(User).where(User.email == email)` with `email` the raw
`sub` claim value: first matching row, if any. -/
def findUserByEmail (users : List UserRec) (sub : ClaimVal) : Option UserRec :=
  users.find? (fun u => ClaimVal.s u.email == sub)

/-- A backend query issued by a checkpoint, recorded in order. -/
inductive Effect where
  | queryBlacklist (token : Wire)
  | loadUser (sub : ClaimVal)
deriving DecidableEq, Repr

/-- An `HTTPException(status_code, detail)` result. -/
structure HTTPExn where
  status_code : Nat
  detail : String
deriving DecidableEq, Repr

def credentials_exception : HTTPExn :=
  ⟨401, "Could not validate credentials"⟩

def refresh_credentials_exception : HTTPExn :=
  ⟨401, "Could not validate refresh token"⟩

/-- `dependencies.get_current_user`: the access-token checkpoint.
Returns the outcome together with the ordered list of backend queries
it issued (blacklist lookup, user load).  The cookie argument is the
`ACCESS_TOKEN_COOKIE_NAME` cookie, `none` when absent. -/
def get_current_user (st : Settings) (now : Int) (s : AuthState)
    (cookie : Option Wire) : Except HTTPExn UserRec × List Effect :=
  match cookie with
  | none => (.error credentials_exception, [])
  | some token =>
    match decode_token st now token with
    | none => (.error credentials_exception, [])
    | some payload =>
      if getClaim "type" payload ≠ some (.s "access") then
        (.error ⟨401, "Invalid token type"⟩, [])
      else
        match getClaim "sub" payload with
        | none => (.error credentials_exception, [])
        | some email =>
          if token ∈ s.blacklist then
            (.error ⟨401, "Token has been revoked"⟩, [.queryBlacklist token])
          else
            match findUserByEmail s.users email with
            | none =>
              (.error credentials_exception,
               [.queryBlacklist token, .loadUser email])
            | some user =>
              if ¬ user.is_active then
                (.error ⟨403, "User account is inactive"⟩,
                 [.queryBlacklist token, .loadUser email])
              else
                (.ok user, [.queryBlacklist token, .loadUser email])

/-- `dependencies.get_refresh_token_user`: the refresh-token
checkpoint.  Same shape, `refresh` type tag, its own messages, and no
`is_active` check; returns the user together with the presented token. -/
def get_refresh_token_user (st : Settings) (now : Int) (s : AuthState)
    (cookie : Option Wire) : Except HTTPExn (UserRec × Wire) × List Effect :=
  match cookie with
  | none => (.error refresh_credentials_exception, [])
  | some token =>
    match decode_token st now token with
    | none => (.error refresh_credentials_exception, [])
    | some payload =>
      if getClaim "type" payload ≠ some (.s "refresh") then
        (.error ⟨401, "Invalid token type, expected refresh token"⟩, [])
      else
        match getClaim "sub" payload with
        | none => (.error refresh_credentials_exception, [])
        | some email =>
          if token ∈ s.blacklist then
            (.error ⟨401, "Refresh token has been revoked"⟩, [.queryBlacklist token])
          else
            match findUserByEmail s.users email with
            | none =>
              (.error refresh_credentials_exception,
               [.queryBlacklist token, .loadUser email])
            | some user =>
              (.ok (user, token), [.queryBlacklist token, .loadUser email])

/-- Modelled from the spec: `refresh_access_token` lives in
`app/authentication/services.py`, which is not among the provided
sources.  Per the spec's refresh-rotation contract — the checkpoint has
already decoded, type-checked and revocation-checked the token — it
must "record the presented refresh token as revoked immediately", then
"mint a fresh access+refresh pair" (default TTLs) for the token's
subject, and return the new pair. -/
def refresh_access_token (st : Settings) (now : Int) (token : Wire)
    (s : AuthState) : (Wire × Wire) × AuthState :=
  let sub : ClaimVal :=
    match token with
    | .malformed => .s ""
    | .tok t => (getClaim "sub" t.claims).getD (.s "")
  let s' : AuthState := { s with blacklist := token :: s.blacklist }
  ((create_access_token st now [("sub", sub)] none,
    create_refresh_token st now [("sub", sub)] none), s')

/-- Modelled from the spec: `logout_user` lives in
`app/authentication/services.py`, which is not among the provided
sources.  Per the spec's logout contract it must "record the presented
access token as revoked" in the revocation store, and nothing else. -/
def logout_user (token : Wire) (s : AuthState) : AuthState :=
  { s with blacklist := token :: s.blacklist }

/-- `routes.refresh_token` (`POST /refresh`): run the refresh-token
checkpoint on the refresh cookie; on success blacklist the old token
and mint a new pair via `refresh_access_token`.  Returns the new pair
(set as cookies) and the resulting store state. -/
def refreshFlow (st : Settings) (now : Int) (s : AuthState)
    (cookie : Option Wire) : Except HTTPExn (Wire × Wire) × AuthState :=
  match (get_refresh_token_user st now s cookie).1 with
  | .error e => (.error e, s)
  | .ok (_, token) =>
    let (pair, s') := refresh_access_token st now token s
    (.ok pair, s')

/-- `routes.logout` (`POST /logout`): run the access-token checkpoint
on the access cookie; on success re-read the same cookie and, when
present, blacklist it via `logout_user`; clear cookies client-side. -/
def logoutFlow (st : Settings) (now : Int) (s : AuthState)
    (cookie : Option Wire) : Except HTTPExn String × AuthState :=
  match (get_current_user st now s cookie).1 with
  | .error e => (.error e, s)
  | .ok _ =>
    match cookie with
    | some token => (.ok "Successfully logged out", logout_user token s)
    | none => (.ok "Successfully logged out", s)

/-- A `response.set_cookie(...)` call, at the fields the spec
constrains (name, value, `max_age` in seconds). -/
structure CookieSetting where
  name : String
  value : Wire
  max_age : Int
deriving DecidableEq, Repr

/-- `helpers.set_auth_cookies`: the access cookie carries
`ACCESS_TOKEN_EXPIRY * 60` seconds of max-age, the refresh cookie
`REFRESH_TOKEN_EXPIRY * 24 * 60 * 60`. -/
def set_auth_cookies (st : Settings) (access_token refresh_token : Wire) :
    CookieSetting × CookieSetting :=
  (⟨st.ACCESS_TOKEN_COOKIE_NAME, access_token, st.ACCESS_TOKEN_EXPIRY * 60⟩,
   ⟨st.REFRESH_TOKEN_COOKIE_NAME, refresh_token,
    st.REFRESH_TOKEN_EXPIRY * 24 * 60 * 60⟩)

/-- The catch-all `except Exception` handler of `routes.reset_password`
(the active, query-parameter variant): it interpolates the caught
exception's text into the user-facing `detail`. -/
def reset_password_catch_all (excText : String) : HTTPExn :=
  ⟨500, "An error occurred while processing your request, " ++ excText⟩

/-- The catch-all `except Exception` handler of `routes.forgot_password`:
a fixed canonical message, independent of the caught exception. -/
def forgot_password_catch_all (_excText : String) : HTTPExn :=
  ⟨500, "An error occurred while processing your request."⟩

/-- The catch-all `except Exception` handlers of
`routes.change_password` and `routes.verify_email`: the same fixed
canonical message, independent of the caught exception. -/
def change_password_catch_all (_excText : String) : HTTPExn :=
  ⟨500, "An error occurred while processing your request."⟩

/-- The claims dictionary a well-formed wire token carries. -/
def tokenClaims : Wire → Option Claims
  | .malformed => none
  | .tok t => some t.claims

theorem getClaim_eraseKey_ne (k k' : String) (h : k ≠ k') (d : Claims) :
    getClaim k (eraseKey k' d) = getClaim k d := by
  induction d with
  | nil => rfl
  | cons kv rest ih =>
    obtain ⟨k₀, v₀⟩ := kv
    by_cases h₀ : k₀ = k'
    · subst h₀
      have hk : k₀ ≠ k := fun hh => h hh.symm
      simp [eraseKey, getClaim, hk, ih]
    · simp only [eraseKey, h₀, if_false, getClaim]
      by_cases hk : k₀ = k
      · simp [hk]
      · simp [hk, ih]

theorem getClaim_insertClaim_self (k : String) (v : ClaimVal) (d : Claims) :
    getClaim k (insertClaim k v d) = some v := by
  simp [insertClaim, getClaim]

theorem getClaim_insertClaim_ne (k k' : String) (v : ClaimVal) (d : Claims)
    (h : k ≠ k') : getClaim k (insertClaim k' v d) = getClaim k d := by
  have hne : k' ≠ k := fun hh => h hh.symm
  simp [insertClaim, getClaim, hne, getClaim_eraseKey_ne k k' h d]

/-- Concrete fixture configuration used by the closed instance checks. -/
def st0 : Settings :=
  ⟨"test-secret", 15, 7, "access_token", "refresh_token"⟩

/-- Concrete fixture user. -/
def alice : UserRec := ⟨"alice@example.com", true, true⟩

/-- Concrete fixture store: empty blacklist, one user. -/
def s0 : AuthState := ⟨[], [alice]⟩

/-- C3: for every subject, token type and positive ttl, decoding right
after minting (same secret, clock unchanged) returns the original
subject and type tag, and decoding after the clock passes the minted
expiry instant returns `none`. -/
theorem mint_verify_roundtrip (st : Settings) (now : Int) (sub : String)
    (ttl : Int) (h : 0 < ttl) :
    (∃ p, decode_token st now
        (create_access_token st now [("sub", .s sub)] (some ttl)) = some p ∧
        getClaim "sub" p = some (.s sub) ∧
        getClaim "type" p = some (.s "access")) ∧
    (∀ now', now + ttl < now' →
        decode_token st now'
          (create_access_token st now [("sub", .s sub)] (some ttl)) = none) ∧
    (∃ p, decode_token st now
        (create_refresh_token st now [("sub", .s sub)] (some ttl)) = some p ∧
        getClaim "sub" p = some (.s sub) ∧
        getClaim "type" p = some (.s "refresh")) ∧
    (∀ now', now + ttl < now' →
        decode_token st now'
          (create_refresh_token st now [("sub", .s sub)] (some ttl)) = none) := by
  have hexp : ¬ (now + ttl < now) := by omega
  refine ⟨⟨insertClaim "type" (.s "access")
      (insertClaim "exp" (.n (now + ttl)) [("sub", ClaimVal.s sub)]),
      ?_, ?_, ?_⟩, ?_,
    ⟨insertClaim "type" (.s "refresh")
      (insertClaim "exp" (.n (now + ttl)) [("sub", ClaimVal.s sub)]),
      ?_, ?_, ?_⟩, ?_⟩
  · simp [create_access_token, jwtEncode, decode_token, jwtDecode, macSig,
      insertClaim, eraseKey, getClaim, hexp]
  · simp [insertClaim, eraseKey, getClaim]
  · simp [insertClaim, eraseKey, getClaim]
  · intro now' h'
    simp [create_access_token, jwtEncode, decode_token, jwtDecode, macSig,
      insertClaim, eraseKey, getClaim, h']
  · simp [create_refresh_token, jwtEncode, decode_token, jwtDecode, macSig,
      insertClaim, eraseKey, getClaim, hexp]
  · simp [insertClaim, eraseKey, getClaim]
  · simp [insertClaim, eraseKey, getClaim]
  · intro now' h'
    simp [create_refresh_token, jwtEncode, decode_token, jwtDecode, macSig,
      insertClaim, eraseKey, getClaim, h']

/-- Closed instance of `mint_verify_roundtrip` at the fixture
configuration: a token minted at time 0 with a 60-second ttl no longer
decodes at time 100. -/
theorem mint_verify_roundtrip_witness :
    decode_token st0 100
      (create_access_token st0 0 [("sub", ClaimVal.s "alice@example.com")]
        (some 60)) = none :=
  (mint_verify_roundtrip st0 0 "alice@example.com" 60 (by decide)).2.1 100
    (by decide)

/-- C4: `decode_token` never raises and never distinguishes the failure
cause — it returns the single value `none` on a malformed wire string,
on a signature that does not verify (in particular on any alteration of
a validly minted token that changes its payload or its signature), and
on an expiry in the past; it returns the claims payload otherwise. -/
theorem decode_token_uniform_failure (st : Settings) (now : Int) :
    (decode_token st now .malformed = none) ∧
    (∀ t : SignedToken, t.sig ≠ macSig st.SECRET_KEY t.claims →
        decode_token st now (.tok t) = none) ∧
    (∀ c c' : Claims, c' ≠ c →
        decode_token st now (.tok ⟨c', macSig st.SECRET_KEY c⟩) = none) ∧
    (∀ (c : Claims) (sg : String × Claims), sg ≠ macSig st.SECRET_KEY c →
        decode_token st now (.tok ⟨c, sg⟩) = none) ∧
    (∀ (t : SignedToken) (e : Int), t.sig = macSig st.SECRET_KEY t.claims →
        getClaim "exp" t.claims = some (.n e) → e < now →
        decode_token st now (.tok t) = none) ∧
    (∀ (t : SignedToken) (e : Int), t.sig = macSig st.SECRET_KEY t.claims →
        getClaim "exp" t.claims = some (.n e) → now ≤ e →
        decode_token st now (.tok t) = some t.claims) := by
  refine ⟨rfl, ?_, ?_, ?_, ?_, ?_⟩
  · intro t h
    simp [decode_token, jwtDecode, h]
  · intro c c' h
    have hs : macSig st.SECRET_KEY c ≠ macSig st.SECRET_KEY c' := by
      simp [macSig]
      exact fun hh => h hh.symm
    simp [decode_token, jwtDecode, hs]
  · intro c sg h
    simp [decode_token, jwtDecode, h]
  · intro t e hsig hexp hlt
    simp [decode_token, jwtDecode, hsig, hexp, hlt]
  · intro t e hsig hexp hle
    have : ¬ e < now := by omega
    simp [decode_token, jwtDecode, hsig, hexp, this]

/-- Closed instance of `decode_token_uniform_failure`: altering the
signed payload of a validly minted token (keeping the original
signature) makes `decode_token` return `none`. -/
theorem decode_token_uniform_failure_witness :
    decode_token st0 0
      (.tok ⟨[("sub", ClaimVal.s "mallory@example.com")],
             macSig st0.SECRET_KEY [("sub", ClaimVal.s "alice@example.com")]⟩)
      = none :=
  (decode_token_uniform_failure st0 0).2.2.1
    [("sub", ClaimVal.s "alice@example.com")]
    [("sub", ClaimVal.s "mallory@example.com")] (by decide)

theorem decode_jwtEncode_inv (st : Settings) (now : Int) (c p : Claims)
    (h : decode_token st now (jwtEncode st.SECRET_KEY c) = some p) : p = c := by
  simp only [decode_token, jwtDecode, jwtEncode, macSig] at h
  rw [if_pos (by trivial)] at h
  rcases hexp : getClaim "exp" c with _ | v
  · rw [hexp] at h
    exact (Option.some_inj.mp h).symm
  · cases v with
    | s sv => rw [hexp] at h; exact absurd h (by simp)
    | n e =>
      rw [hexp] at h
      by_cases he : e < now
      · simp [he] at h
      · simp [he] at h
        exact h.symm

/-- C8: the access cookie's max-age in seconds equals the access TTL
(`ACCESS_TOKEN_EXPIRY` minutes × 60) and the refresh cookie's max-age
equals the refresh TTL (`REFRESH_TOKEN_EXPIRY` days × 86400), and these
are exactly the `exp − now` spans embedded by the default-TTL branches
of `create_access_token` and `create_refresh_token`. -/
theorem cookie_max_age_matches_mint_ttl (st : Settings) (now : Int)
    (d : Claims) (a r : Wire) :
    ((set_auth_cookies st a r).1.max_age = st.ACCESS_TOKEN_EXPIRY * 60 ∧
     (set_auth_cookies st a r).2.max_age = st.REFRESH_TOKEN_EXPIRY * 86400) ∧
    ((tokenClaims (create_access_token st now d none)).bind (getClaim "exp")
        = some (.n (now + (set_auth_cookies st a r).1.max_age)) ∧
     (tokenClaims (create_refresh_token st now d none)).bind (getClaim "exp")
        = some (.n (now + (set_auth_cookies st a r).2.max_age))) := by
  refine ⟨⟨rfl, ?_⟩, ?_, ?_⟩
  · simp [set_auth_cookies]
    ring
  · simp only [set_auth_cookies, create_access_token, jwtEncode, tokenClaims,
      Option.bind]
    rw [getClaim_insertClaim_ne "exp" "type" _ _ (by decide),
      getClaim_insertClaim_self]
  · simp only [set_auth_cookies, create_refresh_token, jwtEncode, tokenClaims,
      Option.bind]
    rw [getClaim_insertClaim_ne "exp" "type" _ _ (by decide),
      getClaim_insertClaim_self]

/-- C9: whatever claims dict the caller supplies — including one that
already binds `type` or `exp` — a token minted by `create_access_token`
decodes with type claim exactly `access` and the expiry the function
computed, and one minted by `create_refresh_token` with type exactly
`refresh`; a caller can never mint a token carrying the other type
tag. -/
theorem mint_overwrites_caller_type_and_exp (st : Settings) (now : Int)
    (d : Claims) (delta : Option Int) (pA pR : Claims)
    (hA : decode_token st now (create_access_token st now d delta) = some pA)
    (hR : decode_token st now (create_refresh_token st now d delta) = some pR) :
    getClaim "type" pA = some (.s "access") ∧
    getClaim "exp" pA = some (.n (match delta with
      | some dd => now + dd
      | none => now + st.ACCESS_TOKEN_EXPIRY * 60)) ∧
    getClaim "type" pR = some (.s "refresh") ∧
    getClaim "exp" pR = some (.n (match delta with
      | some dd => now + dd
      | none => now + st.REFRESH_TOKEN_EXPIRY * 24 * 60 * 60)) := by
  have hA' := decode_jwtEncode_inv st now _ _ hA
  have hR' := decode_jwtEncode_inv st now _ _ hR
  subst hA'
  subst hR'
  cases delta with
  | none =>
    refine ⟨getClaim_insertClaim_self _ _ _, ?_,
      getClaim_insertClaim_self _ _ _, ?_⟩
    · rw [getClaim_insertClaim_ne "exp" "type" _ _ (by decide),
        getClaim_insertClaim_self]
    · rw [getClaim_insertClaim_ne "exp" "type" _ _ (by decide),
        getClaim_insertClaim_self]
  | some dd =>
    refine ⟨getClaim_insertClaim_self _ _ _, ?_,
      getClaim_insertClaim_self _ _ _, ?_⟩
    · rw [getClaim_insertClaim_ne "exp" "type" _ _ (by decide),
        getClaim_insertClaim_self]
    · rw [getClaim_insertClaim_ne "exp" "type" _ _ (by decide),
        getClaim_insertClaim_self]

/-- Closed instance of `mint_overwrites_caller_type_and_exp`: a caller
dict that claims `type = refresh` and a stale `exp` still mints an
access token that decodes with `type = access` and the fresh expiry. -/
theorem mint_overwrites_caller_type_and_exp_witness :
    getClaim "type"
      ((decode_token st0 1000
        (create_access_token st0 1000
          [("type", ClaimVal.s "refresh"), ("exp", ClaimVal.n 3),
           ("sub", ClaimVal.s "alice@example.com")] none)).getD [])
      = some (ClaimVal.s "access") := by
  have h := mint_overwrites_caller_type_and_exp st0 1000
    [("type", ClaimVal.s "refresh"), ("exp", ClaimVal.n 3),
     ("sub", ClaimVal.s "alice@example.com")] none
    (insertClaim "type" (.s "access")
      (insertClaim "exp" (.n 1900)
        [("type", ClaimVal.s "refresh"), ("exp", ClaimVal.n 3),
         ("sub", ClaimVal.s "alice@example.com")]))
    (insertClaim "type" (.s "refresh")
      (insertClaim "exp" (.n 605800)
        [("type", ClaimVal.s "refresh"), ("exp", ClaimVal.n 3),
         ("sub", ClaimVal.s "alice@example.com")]))
    (by decide) (by decide)
  rw [show (decode_token st0 1000
        (create_access_token st0 1000
          [("type", ClaimVal.s "refresh"), ("exp", ClaimVal.n 3),
           ("sub", ClaimVal.s "alice@example.com")] none)).getD []
      = insertClaim "type" (.s "access")
          (insertClaim "exp" (.n 1900)
            [("type", ClaimVal.s "refresh"), ("exp", ClaimVal.n 3),
             ("sub", ClaimVal.s "alice@example.com")]) from by decide]
  exact h.1

/-- C5: a validly signed, unexpired token whose type claim is not
`access` is rejected by the access-token checkpoint with the wrong-type
failure, and one whose type claim is not `refresh` is rejected by the
refresh-token checkpoint with its wrong-type failure. -/
theorem checkpoint_rejects_wrong_type (st : Settings) (now : Int)
    (s : AuthState) (w : Wire) (p : Claims)
    (h : decode_token st now w = some p) :
    (getClaim "type" p ≠ some (.s "access") →
      (get_current_user st now s (some w)).1 =
        .error ⟨401, "Invalid token type"⟩) ∧
    (getClaim "type" p ≠ some (.s "refresh") →
      (get_refresh_token_user st now s (some w)).1 =
        .error ⟨401, "Invalid token type, expected refresh token"⟩) := by
  constructor
  · intro hty
    simp [get_current_user, h, hty]
  · intro hty
    simp [get_refresh_token_user, h, hty]

/-- Closed instance of `checkpoint_rejects_wrong_type`: a freshly
minted refresh token presented at the access-token checkpoint fails
with the wrong-type error. -/
theorem checkpoint_rejects_wrong_type_witness :
    (get_current_user st0 0 s0
      (some (create_refresh_token st0 0
        [("sub", ClaimVal.s "alice@example.com")] none))).1 =
      .error ⟨401, "Invalid token type"⟩ :=
  (checkpoint_rejects_wrong_type st0 0 s0 _
    (insertClaim "type" (.s "refresh")
      (insertClaim "exp" (.n 604800) [("sub", ClaimVal.s "alice@example.com")]))
    (by decide)).1 (by decide)

/-- C6: in every access-token checkpoint run the checks happen in the
source order — decode, type check, revocation-store lookup, user load,
`is_active` — each reached only when all earlier checks passed: a
decode or type failure ends with no backend query at all (the
revocation store is never consulted for such a token); the revoked
outcome happens exactly at the store lookup, before any user load; the
inactive outcome (and success) require the store lookup to have passed
and the user to have been loaded; and every execution's query trace is
one of `[]`, `[queryBlacklist]`, `[queryBlacklist, loadUser]`. -/
theorem access_checkpoint_check_order (st : Settings) (now : Int)
    (s : AuthState) (w : Wire) :
    (decode_token st now w = none →
      get_current_user st now s (some w) = (.error credentials_exception, [])) ∧
    (∀ p, decode_token st now w = some p →
      getClaim "type" p ≠ some (.s "access") →
      get_current_user st now s (some w) =
        (.error ⟨401, "Invalid token type"⟩, [])) ∧
    ((get_current_user st now s (some w)).1 =
        .error ⟨401, "Token has been revoked"⟩ →
      ∃ p, decode_token st now w = some p ∧
        getClaim "type" p = some (.s "access") ∧ w ∈ s.blacklist ∧
        (get_current_user st now s (some w)).2 = [.queryBlacklist w]) ∧
    ((get_current_user st now s (some w)).1 =
        .error ⟨403, "User account is inactive"⟩ →
      ∃ p email u, decode_token st now w = some p ∧
        getClaim "type" p = some (.s "access") ∧
        getClaim "sub" p = some email ∧ w ∉ s.blacklist ∧
        findUserByEmail s.users email = some u ∧ u.is_active = false ∧
        (get_current_user st now s (some w)).2 =
          [.queryBlacklist w, .loadUser email]) ∧
    (∀ u, (get_current_user st now s (some w)).1 = .ok u →
      ∃ p email, decode_token st now w = some p ∧
        getClaim "type" p = some (.s "access") ∧
        getClaim "sub" p = some email ∧ w ∉ s.blacklist ∧
        findUserByEmail s.users email = some u ∧ u.is_active = true ∧
        (get_current_user st now s (some w)).2 =
          [.queryBlacklist w, .loadUser email]) ∧
    ((get_current_user st now s (some w)).2 = [] ∨
     (get_current_user st now s (some w)).2 = [.queryBlacklist w] ∨
     ∃ email, (get_current_user st now s (some w)).2 =
       [.queryBlacklist w, .loadUser email]) := by
  rcases hd : decode_token st now w with _ | p
  · have hgcu : get_current_user st now s (some w) =
        (.error credentials_exception, []) := by
      simp [get_current_user, hd]
    refine ⟨fun _ => hgcu, ?_, ?_, ?_, ?_, ?_⟩
    · intro p hp
      exact Option.noConfusion hp
    · rw [hgcu]
      intro hcontra
      exact absurd hcontra (by simp [credentials_exception])
    · rw [hgcu]
      intro hcontra
      exact absurd hcontra (by simp [credentials_exception])
    · rw [hgcu]
      intro u hcontra
      exact absurd hcontra (by simp)
    · rw [hgcu]
      exact Or.inl rfl
  · by_cases hty : getClaim "type" p = some (.s "access")
    · rcases hs : getClaim "sub" p with _ | email
      · have hgcu : get_current_user st now s (some w) =
            (.error credentials_exception, []) := by
          simp [get_current_user, hd, hty, hs]
        refine ⟨?_, ?_, ?_, ?_, ?_, ?_⟩
        · intro h
          exact Option.noConfusion h
        · intro p' hp' hty'
          cases Option.some_inj.mp hp'
          exact absurd hty hty'
        · rw [hgcu]
          intro hcontra
          exact absurd hcontra (by simp [credentials_exception])
        · rw [hgcu]
          intro hcontra
          exact absurd hcontra (by simp [credentials_exception])
        · rw [hgcu]
          intro u hcontra
          exact absurd hcontra (by simp)
        · rw [hgcu]
          exact Or.inl rfl
      · by_cases hb : w ∈ s.blacklist
        · have hgcu : get_current_user st now s (some w) =
              (.error ⟨401, "Token has been revoked"⟩, [.queryBlacklist w]) := by
            simp [get_current_user, hd, hty, hs, hb]
          refine ⟨?_, ?_, ?_, ?_, ?_, ?_⟩
          · intro h
            exact Option.noConfusion h
          · intro p' hp' hty'
            cases Option.some_inj.mp hp'
            exact absurd hty hty'
          · intro _
            exact ⟨p, rfl, hty, hb, by rw [hgcu]⟩
          · rw [hgcu]
            intro hcontra
            exact absurd hcontra (by simp)
          · rw [hgcu]
            intro u hcontra
            exact absurd hcontra (by simp)
          · rw [hgcu]
            exact Or.inr (Or.inl rfl)
        · rcases hu : findUserByEmail s.users email with _ | u
          · have hgcu : get_current_user st now s (some w) =
                (.error credentials_exception,
                 [.queryBlacklist w, .loadUser email]) := by
              simp [get_current_user, hd, hty, hs, hb, hu]
            refine ⟨?_, ?_, ?_, ?_, ?_, ?_⟩
            · intro h
              exact Option.noConfusion h
            · intro p' hp' hty'
              cases Option.some_inj.mp hp'
              exact absurd hty hty'
            · rw [hgcu]
              intro hcontra
              exact absurd hcontra (by simp [credentials_exception])
            · rw [hgcu]
              intro hcontra
              exact absurd hcontra (by simp [credentials_exception])
            · rw [hgcu]
              intro u hcontra
              exact absurd hcontra (by simp)
            · rw [hgcu]
              exact Or.inr (Or.inr ⟨email, rfl⟩)
          · cases hua : u.is_active
            · have hgcu : get_current_user st now s (some w) =
                  (.error ⟨403, "User account is inactive"⟩,
                   [.queryBlacklist w, .loadUser email]) := by
                simp [get_current_user, hd, hty, hs, hb, hu, hua]
              refine ⟨?_, ?_, ?_, ?_, ?_, ?_⟩
              · intro h
                exact Option.noConfusion h
              · intro p' hp' hty'
                cases Option.some_inj.mp hp'
                exact absurd hty hty'
              · rw [hgcu]
                intro hcontra
                exact absurd hcontra (by simp)
              · intro _
                exact ⟨p, email, u, rfl, hty, hs, hb, hu, hua, by rw [hgcu]⟩
              · rw [hgcu]
                intro u' hcontra
                exact absurd hcontra (by simp)
              · rw [hgcu]
                exact Or.inr (Or.inr ⟨email, rfl⟩)
            · have hgcu : get_current_user st now s (some w) =
                  (.ok u, [.queryBlacklist w, .loadUser email]) := by
                simp [get_current_user, hd, hty, hs, hb, hu, hua]
              refine ⟨?_, ?_, ?_, ?_, ?_, ?_⟩
              · intro h
                exact Option.noConfusion h
              · intro p' hp' hty'
                cases Option.some_inj.mp hp'
                exact absurd hty hty'
              · rw [hgcu]
                intro hcontra
                exact absurd hcontra (by simp)
              · rw [hgcu]
                intro hcontra
                exact absurd hcontra (by simp)
              · intro u' hu'
                rw [hgcu] at hu'
                simp only [] at hu'
                cases hu'
                exact ⟨p, email, rfl, hty, hs, hb, hu, hua, by rw [hgcu]⟩
              · rw [hgcu]
                exact Or.inr (Or.inr ⟨email, rfl⟩)
    · have hgcu : get_current_user st now s (some w) =
          (.error ⟨401, "Invalid token type"⟩, []) := by
        simp [get_current_user, hd, hty]
      refine ⟨?_, ?_, ?_, ?_, ?_, ?_⟩
      · intro h
        exact Option.noConfusion h
      · intro p' hp' _
        cases Option.some_inj.mp hp'
        exact hgcu
      · rw [hgcu]
        intro hcontra
        exact absurd hcontra (by simp)
      · rw [hgcu]
        intro hcontra
        exact absurd hcontra (by simp)
      · rw [hgcu]
        intro u hcontra
        exact absurd hcontra (by simp)
      · rw [hgcu]
        exact Or.inl rfl

instance {ε α : Type} [DecidableEq ε] [DecidableEq α] :
    DecidableEq (Except ε α) := fun x y =>
  match x, y with
  | .error a, .error b => decidable_of_iff (a = b) (by simp)
  | .ok a, .ok b => decidable_of_iff (a = b) (by simp)
  | .error _, .ok _ => .isFalse (by simp)
  | .ok _, .error _ => .isFalse (by simp)

/-- Fixture access token: minted at time 0 with the default TTL. -/
def t0 : Wire :=
  create_access_token st0 0 [("sub", ClaimVal.s "alice@example.com")] none

/-- Fixture store in which `t0` has been blacklisted. -/
def s1 : AuthState := ⟨[t0], [alice]⟩

/-- Closed instance of `access_checkpoint_check_order`: with the
fixture token blacklisted, the revoked outcome implies the token
decoded with type `access` and the only backend query was the
blacklist lookup. -/
theorem access_checkpoint_check_order_witness :
    ∃ p, decode_token st0 0 t0 = some p ∧
      getClaim "type" p = some (ClaimVal.s "access") ∧ t0 ∈ s1.blacklist ∧
      (get_current_user st0 0 s1 (some t0)).2 = [.queryBlacklist t0] :=
  (access_checkpoint_check_order st0 0 s1 t0).2.2.1 (by decide)

theorem decode_token_claims_stable (st : Settings) (n1 n2 : Int) (w : Wire)
    (p1 p2 : Claims) (h1 : decode_token st n1 w = some p1)
    (h2 : decode_token st n2 w = some p2) : p1 = p2 := by
  cases w with
  | malformed => simp [decode_token, jwtDecode] at h1
  | tok t =>
    by_cases hsig : t.sig = macSig st.SECRET_KEY t.claims
    · rcases hexp : getClaim "exp" t.claims with _ | v
      · simp [decode_token, jwtDecode, hsig, hexp] at h1 h2
        rw [← h1, ← h2]
      · cases v with
        | s sv => simp [decode_token, jwtDecode, hsig, hexp] at h1
        | n e =>
          by_cases he1 : e < n1
          · simp [decode_token, jwtDecode, hsig, hexp, he1] at h1
          · by_cases he2 : e < n2
            · simp [decode_token, jwtDecode, hsig, hexp, he2] at h2
            · simp [decode_token, jwtDecode, hsig, hexp, he1, he2] at h1 h2
              rw [← h1, ← h2]
    · simp [decode_token, jwtDecode, hsig] at h1

theorem get_current_user_ok_inv (st : Settings) (now : Int) (s : AuthState)
    (cookie : Option Wire) (u : UserRec)
    (h : (get_current_user st now s cookie).1 = .ok u) :
    ∃ w p email, cookie = some w ∧ decode_token st now w = some p ∧
      getClaim "type" p = some (.s "access") ∧
      getClaim "sub" p = some email ∧ w ∉ s.blacklist ∧
      findUserByEmail s.users email = some u ∧ u.is_active = true := by
  cases cookie with
  | none => simp [get_current_user] at h
  | some w =>
    rcases hd : decode_token st now w with _ | p
    · simp [get_current_user, hd] at h
    · by_cases hty : getClaim "type" p = some (.s "access")
      · rcases hs : getClaim "sub" p with _ | email
        · simp [get_current_user, hd, hty, hs] at h
        · by_cases hb : w ∈ s.blacklist
          · simp [get_current_user, hd, hty, hs, hb] at h
          · rcases hu : findUserByEmail s.users email with _ | u'
            · simp [get_current_user, hd, hty, hs, hb, hu] at h
            · cases hua : u'.is_active
              · simp [get_current_user, hd, hty, hs, hb, hu, hua] at h
              · simp [get_current_user, hd, hty, hs, hb, hu, hua] at h
                subst h
                exact ⟨w, p, email, rfl, hd, hty, hs, hb, hu, hua⟩
      · simp [get_current_user, hd, hty] at h

theorem get_current_user_revoked_intro (st : Settings) (now : Int)
    (s : AuthState) (w : Wire) (p : Claims) (email : ClaimVal)
    (hd : decode_token st now w = some p)
    (hty : getClaim "type" p = some (.s "access"))
    (hs : getClaim "sub" p = some email) (hb : w ∈ s.blacklist) :
    (get_current_user st now s (some w)).1 =
      .error ⟨401, "Token has been revoked"⟩ := by
  simp [get_current_user, hd, hty, hs, hb]

/-- C2: after a logout request presenting access token `t` completes
successfully, every later access-token checkpoint call presenting `t`
while it still decodes (signature valid, expiry not yet passed) fails
with the revoked error. -/
theorem logout_revokes_access_token (st : Settings) (now now' : Int)
    (s : AuthState) (t : Wire) (msg : String) (s' : AuthState) (p : Claims)
    (hlo : logoutFlow st now s (some t) = (.ok msg, s'))
    (hdec : decode_token st now' t = some p) :
    (get_current_user st now' s' (some t)).1 =
      .error ⟨401, "Token has been revoked"⟩ := by
  rcases hres : (get_current_user st now s (some t)).1 with e | u
  · simp [logoutFlow, hres] at hlo
  · have hlo' : s' = logout_user t s := by
      simp [logoutFlow, hres] at hlo
      exact hlo.2.symm
    obtain ⟨w, p0, email, hw, hd0, hty0, hs0, _, _, _⟩ :=
      get_current_user_ok_inv st now s (some t) u hres
    cases hw
    have hp : p = p0 := decode_token_claims_stable st now' now t p p0 hdec hd0
    subst hp
    subst hlo'
    exact get_current_user_revoked_intro st now' (logout_user t s) t p email
      hdec hty0 hs0 (by simp [logout_user])

/-- Closed instance of `logout_revokes_access_token`: the fixture
access token, once logged out at time 0, is rejected as revoked at
time 1. -/
theorem logout_revokes_access_token_witness :
    (get_current_user st0 1 ⟨[t0], [alice]⟩ (some t0)).1 =
      .error ⟨401, "Token has been revoked"⟩ :=
  logout_revokes_access_token st0 0 1 s0 t0 "Successfully logged out"
    ⟨[t0], [alice]⟩
    (insertClaim "type" (.s "access")
      (insertClaim "exp" (.n 900) [("sub", ClaimVal.s "alice@example.com")]))
    (by decide) (by decide)

theorem decode_token_some_claims (st : Settings) (n : Int) (tt : SignedToken)
    (p : Claims) (h : decode_token st n (.tok tt) = some p) : p = tt.claims := by
  by_cases hsig : tt.sig = macSig st.SECRET_KEY tt.claims
  · rcases hexp : getClaim "exp" tt.claims with _ | v
    · simp [decode_token, jwtDecode, hsig, hexp] at h
      exact h.symm
    · cases v with
      | s sv => simp [decode_token, jwtDecode, hsig, hexp] at h
      | n e =>
        by_cases he : e < n
        · simp [decode_token, jwtDecode, hsig, hexp, he] at h
        · simp [decode_token, jwtDecode, hsig, hexp, he] at h
          exact h.symm
  · simp [decode_token, jwtDecode, hsig] at h

theorem get_refresh_token_user_ok_inv (st : Settings) (now : Int)
    (s : AuthState) (cookie : Option Wire) (u : UserRec) (tok : Wire)
    (h : (get_refresh_token_user st now s cookie).1 = .ok (u, tok)) :
    cookie = some tok ∧ ∃ p email, decode_token st now tok = some p ∧
      getClaim "type" p = some (.s "refresh") ∧
      getClaim "sub" p = some email ∧ tok ∉ s.blacklist ∧
      findUserByEmail s.users email = some u := by
  cases cookie with
  | none => simp [get_refresh_token_user] at h
  | some w =>
    rcases hd : decode_token st now w with _ | p
    · simp [get_refresh_token_user, hd] at h
    · by_cases hty : getClaim "type" p = some (.s "refresh")
      · rcases hs : getClaim "sub" p with _ | email
        · simp [get_refresh_token_user, hd, hty, hs] at h
        · by_cases hb : w ∈ s.blacklist
          · simp [get_refresh_token_user, hd, hty, hs, hb] at h
          · rcases hu : findUserByEmail s.users email with _ | u'
            · simp [get_refresh_token_user, hd, hty, hs, hb, hu] at h
            · simp [get_refresh_token_user, hd, hty, hs, hb, hu] at h
              obtain ⟨hu', htok⟩ := h
              subst hu'
              subst htok
              exact ⟨rfl, p, email, hd, hty, hs, hb, hu⟩
      · simp [get_refresh_token_user, hd, hty] at h

theorem get_refresh_token_user_ok_intro (st : Settings) (now : Int)
    (s : AuthState) (w : Wire) (p : Claims) (email : ClaimVal) (u : UserRec)
    (hd : decode_token st now w = some p)
    (hty : getClaim "type" p = some (.s "refresh"))
    (hs : getClaim "sub" p = some email) (hb : w ∉ s.blacklist)
    (hu : findUserByEmail s.users email = some u) :
    (get_refresh_token_user st now s (some w)).1 = .ok (u, w) := by
  simp [get_refresh_token_user, hd, hty, hs, hb, hu]

theorem get_refresh_token_user_revoked_intro (st : Settings) (now : Int)
    (s : AuthState) (w : Wire) (p : Claims) (email : ClaimVal)
    (hd : decode_token st now w = some p)
    (hty : getClaim "type" p = some (.s "refresh"))
    (hs : getClaim "sub" p = some email) (hb : w ∈ s.blacklist) :
    (get_refresh_token_user st now s (some w)).1 =
      .error ⟨401, "Refresh token has been revoked"⟩ := by
  simp [get_refresh_token_user, hd, hty, hs, hb]

theorem refreshFlow_of_checkpoint_error (st : Settings) (now : Int)
    (s : AuthState) (cookie : Option Wire) (e : HTTPExn)
    (h : (get_refresh_token_user st now s cookie).1 = .error e) :
    refreshFlow st now s cookie = (.error e, s) := by
  simp [refreshFlow, h]

theorem refreshFlow_of_checkpoint_ok (st : Settings) (now : Int)
    (s : AuthState) (cookie : Option Wire) (u : UserRec) (tok : Wire)
    (h : (get_refresh_token_user st now s cookie).1 = .ok (u, tok)) :
    refreshFlow st now s cookie =
      (.ok (refresh_access_token st now tok s).1,
       (refresh_access_token st now tok s).2) := by
  simp [refreshFlow, h]

/-- C1 (amended): when a refresh request presenting token `t` succeeds,
`t` is recorded revoked in the resulting store, so every later refresh
request presenting `t` while it still decodes fails with the revoked
error; and the new refresh token `r` of that call, provided it is not
itself already a revoked wire string, is accepted exactly once more:
its next presentation (while it decodes) succeeds, and any presentation
after that one fails with the revoked error. -/
theorem refresh_rotation_single_use (st : Settings) (now : Int)
    (s : AuthState) (t a r : Wire) (s' : AuthState)
    (h1 : refreshFlow st now s (some t) = (.ok (a, r), s')) :
    t ∈ s'.blacklist ∧
    (∀ now' pt, decode_token st now' t = some pt →
      (refreshFlow st now' s' (some t)).1 =
        .error ⟨401, "Refresh token has been revoked"⟩) ∧
    (∀ now'' now''' pr pr', r ∉ s'.blacklist →
      decode_token st now'' r = some pr →
      decode_token st now''' r = some pr' →
      (∃ pair, (refreshFlow st now'' s' (some r)).1 = .ok pair) ∧
      (refreshFlow st now'''
          ((refreshFlow st now'' s' (some r)).2) (some r)).1 =
        .error ⟨401, "Refresh token has been revoked"⟩) := by
  rcases hres : (get_refresh_token_user st now s (some t)).1 with e | ut
  · rw [refreshFlow_of_checkpoint_error st now s (some t) e hres] at h1
    exact absurd h1 (by simp)
  · obtain ⟨u, tok⟩ := ut
    obtain ⟨hcook, pt0, email0, hd0, hty0, hs0, _, hu0⟩ :=
      get_refresh_token_user_ok_inv st now s (some t) u tok hres
    cases hcook
    rw [refreshFlow_of_checkpoint_ok st now s (some t) u t hres] at h1
    cases t with
    | malformed => simp [decode_token, jwtDecode] at hd0
    | tok tt =>
      have hcl : pt0 = tt.claims :=
        decode_token_some_claims st now tt pt0 hd0
      subst hcl
      have hrat : refresh_access_token st now (.tok tt) s =
          ((create_access_token st now [("sub", email0)] none,
            create_refresh_token st now [("sub", email0)] none),
           ⟨.tok tt :: s.blacklist, s.users⟩) := by
        simp [refresh_access_token, hs0]
      rw [hrat] at h1
      simp only [Prod.mk.injEq, Except.ok.injEq] at h1
      obtain ⟨⟨ha, hr⟩, hs'⟩ := h1
      subst ha
      subst hr
      subst hs'
      refine ⟨by simp, ?_, ?_⟩
      · intro now' pt hdt
        have hcl' : pt = tt.claims :=
          decode_token_some_claims st now' tt pt hdt
        subst hcl'
        have hrev := get_refresh_token_user_revoked_intro st now'
          ⟨.tok tt :: s.blacklist, s.users⟩ (.tok tt) tt.claims email0
          hdt hty0 hs0 (by simp)
        rw [refreshFlow_of_checkpoint_error _ _ _ _ _ hrev]
      · intro now'' now''' pr pr' hnb hdr hdr'
        have hrC : create_refresh_token st now [("sub", email0)] none =
            jwtEncode st.SECRET_KEY
              (insertClaim "type" (.s "refresh")
                (insertClaim "exp"
                  (.n (now + st.REFRESH_TOKEN_EXPIRY * 24 * 60 * 60))
                  [("sub", email0)])) := rfl
        have hprC : pr = insertClaim "type" (.s "refresh")
            (insertClaim "exp"
              (.n (now + st.REFRESH_TOKEN_EXPIRY * 24 * 60 * 60))
              [("sub", email0)]) := by
          rw [hrC] at hdr
          exact decode_jwtEncode_inv st now'' _ _ hdr
        have hprC' : pr' = insertClaim "type" (.s "refresh")
            (insertClaim "exp"
              (.n (now + st.REFRESH_TOKEN_EXPIRY * 24 * 60 * 60))
              [("sub", email0)]) := by
          rw [hrC] at hdr'
          exact decode_jwtEncode_inv st now''' _ _ hdr'
        have htyC : getClaim "type" pr = some (.s "refresh") := by
          rw [hprC]
          exact getClaim_insertClaim_self _ _ _
        have hsC : getClaim "sub" pr = some email0 := by
          rw [hprC]
          rw [getClaim_insertClaim_ne "sub" "type" _ _ (by decide),
            getClaim_insertClaim_ne "sub" "exp" _ _ (by decide)]
          simp [getClaim]
        have hok2 := get_refresh_token_user_ok_intro st now''
          ⟨.tok tt :: s.blacklist, s.users⟩
          (create_refresh_token st now [("sub", email0)] none)
          pr email0 u hdr htyC hsC hnb hu0
        have hflow2 := refreshFlow_of_checkpoint_ok st now''
          ⟨.tok tt :: s.blacklist, s.users⟩
          (some (create_refresh_token st now [("sub", email0)] none)) u
          (create_refresh_token st now [("sub", email0)] none) hok2
        constructor
        · exact ⟨_, by rw [hflow2]⟩
        · rw [hflow2]
          have htyC' : getClaim "type" pr' = some (.s "refresh") := by
            rw [hprC']
            exact getClaim_insertClaim_self _ _ _
          have hsC' : getClaim "sub" pr' = some email0 := by
            rw [hprC']
            rw [getClaim_insertClaim_ne "sub" "type" _ _ (by decide),
              getClaim_insertClaim_ne "sub" "exp" _ _ (by decide)]
            simp [getClaim]
          have hrev2 := get_refresh_token_user_revoked_intro st now'''
            (refresh_access_token st now''
              (create_refresh_token st now [("sub", email0)] none)
              ⟨.tok tt :: s.blacklist, s.users⟩).2
            (create_refresh_token st now [("sub", email0)] none)
            pr' email0 hdr' htyC' hsC' (by simp [refresh_access_token])
          rw [refreshFlow_of_checkpoint_error _ _ _ _ _ hrev2]

/-- Fixture refresh token minted at time 0 with the default TTL. -/
def rt0 : Wire :=
  create_refresh_token st0 0 [("sub", ClaimVal.s "alice@example.com")] none

/-- Fixture access token minted at time 1. -/
def at1 : Wire :=
  create_access_token st0 1 [("sub", ClaimVal.s "alice@example.com")] none

/-- Fixture refresh token minted at time 1. -/
def rt1 : Wire :=
  create_refresh_token st0 1 [("sub", ClaimVal.s "alice@example.com")] none

/-- Counterexample to C1 as frozen: a refresh request at the very
instant the presented refresh token was minted succeeds — the token is
accepted once — but the new refresh token the call returns is the
byte-identical wire string (same subject, same expiry second), which
the call itself has just recorded as revoked; its next presentation
fails with the revoked error, so the new refresh token is accepted
zero further times, not exactly once more. -/
theorem refresh_rotation_counterexample :
    refreshFlow st0 0 s0 (some rt0) =
      (.ok (t0, rt0), ⟨[rt0], [alice]⟩) ∧
    (refreshFlow st0 0 ⟨[rt0], [alice]⟩ (some rt0)).1 =
      .error ⟨401, "Refresh token has been revoked"⟩ := by
  decide

/-- Closed instance of `refresh_rotation_single_use`: after rotating
the fixture refresh token at time 1, the new refresh token is accepted
at time 2 and rejected as revoked at time 3. -/
theorem refresh_rotation_single_use_witness :
    (∃ pair, (refreshFlow st0 2 ⟨[rt0], [alice]⟩ (some rt1)).1 = .ok pair) ∧
    (refreshFlow st0 3
        ((refreshFlow st0 2 ⟨[rt0], [alice]⟩ (some rt1)).2) (some rt1)).1 =
      .error ⟨401, "Refresh token has been revoked"⟩ :=
  (refresh_rotation_single_use st0 1 s0 rt0 at1 rt1 ⟨[rt0], [alice]⟩
      (by decide)).2.2 2 3
    (insertClaim "type" (.s "refresh")
      (insertClaim "exp" (.n 604801) [("sub", ClaimVal.s "alice@example.com")]))
    (insertClaim "type" (.s "refresh")
      (insertClaim "exp" (.n 604801) [("sub", ClaimVal.s "alice@example.com")]))
    (by decide) (by decide) (by decide)

theorem get_refresh_token_user_congr (st : Settings) (now : Int)
    (s₁ s₂ : AuthState) (w : Wire) (husers : s₁.users = s₂.users)
    (hmem : (w ∈ s₁.blacklist) ↔ (w ∈ s₂.blacklist)) :
    get_refresh_token_user st now s₁ (some w) =
      get_refresh_token_user st now s₂ (some w) := by
  simp only [get_refresh_token_user, husers, hmem]

/-- C10: a successful logout presenting access token `t` mutates the
revocation store only by recording `t` — the user table is untouched
and the session's refresh token is not recorded — so the refresh-token
checkpoint behaves identically before and after the logout for any
validly decoding refresh token. -/
theorem logout_touches_only_access_token (st : Settings) (now now' : Int)
    (s : AuthState) (t : Wire) (msg : String) (s' : AuthState)
    (r : Wire) (pr : Claims)
    (hlo : logoutFlow st now s (some t) = (.ok msg, s'))
    (hdr : decode_token st now' r = some pr)
    (htyr : getClaim "type" pr = some (.s "refresh")) :
    s'.blacklist = t :: s.blacklist ∧ s'.users = s.users ∧
    get_refresh_token_user st now' s' (some r) =
      get_refresh_token_user st now' s (some r) := by
  rcases hres : (get_current_user st now s (some t)).1 with e | u
  · simp [logoutFlow, hres] at hlo
  · have hs' : s' = logout_user t s := by
      simp [logoutFlow, hres] at hlo
      exact hlo.2.symm
    subst hs'
    obtain ⟨w, p0, email, hw, hd0, hty0, _, _, _, _⟩ :=
      get_current_user_ok_inv st now s (some t) u hres
    cases hw
    have hne : r ≠ t := by
      intro he
      subst he
      have hpp := decode_token_claims_stable st now' now r pr p0 hdr hd0
      rw [hpp, hty0] at htyr
      exact absurd htyr (by simp)
    refine ⟨by simp [logout_user], by simp [logout_user], ?_⟩
    apply get_refresh_token_user_congr
    · simp [logout_user]
    · simp [logout_user, hne]

/-- Closed instance of `logout_touches_only_access_token`: logging out
the fixture access token leaves the refresh checkpoint's answer for the
fixture refresh token unchanged. -/
theorem logout_touches_only_access_token_witness :
    get_refresh_token_user st0 1 ⟨[t0], [alice]⟩ (some rt0) =
      get_refresh_token_user st0 1 s0 (some rt0) :=
  (logout_touches_only_access_token st0 0 1 s0 t0 "Successfully logged out"
    ⟨[t0], [alice]⟩ rt0
    (insertClaim "type" (.s "refresh")
      (insertClaim "exp" (.n 604800) [("sub", ClaimVal.s "alice@example.com")]))
    (by decide) (by decide) (by decide)).2.2

/-- C7: the catch-all handler of the reset-password flow interpolates
the caught exception's text into the user-facing detail instead of the
canonical fixed message used by the other flows — for any exception
text the returned detail embeds that text verbatim, and so differs
from the canonical message. -/
theorem reset_password_detail_leaks_exception_text :
    (∀ e : String, reset_password_catch_all e =
      ⟨500, "An error occurred while processing your request, " ++ e⟩) ∧
    (∀ e : String, forgot_password_catch_all e =
      ⟨500, "An error occurred while processing your request."⟩) ∧
    (∀ e : String, change_password_catch_all e =
      ⟨500, "An error occurred while processing your request."⟩) ∧
    reset_password_catch_all "connection refused to db:5432" ≠
      ⟨500, "An error occurred while processing your request."⟩ := by
  exact ⟨fun e => rfl, fun e => rfl, fun e => rfl, by decide⟩
